import Mathlib

/-!
Verification of the byteplus SDK HTTP caller (`byteplus/core/http_caller.py`).

The embedding models bytes as `Nat` (values below 256 where it matters),
Python strings as Lean `String`, and the per-call sources of nondeterminism
(clock, uuid generator, `random.sample`) as an explicit `CallWorld` input.
The transport (`requests.post`) is an input function from the transmitted
body bytes to an abstract outcome, so that what the caller hands to the
transport is observable in theorems.
-/

/-- Modelled from the spec: the `Context` entity of `byteplus.core.context`
(not part of the sources here): `tenant_id` (string) and `token`
(secret string used as signing key material). -/
structure Context where
  tenant_id : String
  token : String

/-- Modelled from the spec: the per-call `_Options` record of
`byteplus.core.options` (not part of the sources here): an optional
externally supplied request id and an optional timeout duration
(modelled in whole seconds; its value is never inspected by the caller,
only forwarded to the transport). -/
structure CallOptions where
  request_id : Option String
  timeout : Option Nat

/-- The per-call nondeterministic environment: `now` is `int(time.time())`,
`uuid1` is the string form of `uuid.uuid1()`, and `nonceSample` is the
result of `random.sample(string.ascii_letters + string.digits, 8)`. -/
structure CallWorld where
  now : Nat
  uuid1 : String
  nonceSample : List Char

/-- Models Python `str.encode('utf-8')` for one code point. -/
def utf8EncodeChar (n : Nat) : List Nat :=
  if n < 128 then [n]
  else if n < 2048 then [192 + n / 64, 128 + n % 64]
  else if n < 65536 then [224 + n / 4096, 128 + n / 64 % 64, 128 + n % 64]
  else [240 + n / 262144, 128 + n / 4096 % 64, 128 + n / 64 % 64, 128 + n % 64]

/-- Models Python `str.encode('utf-8')`: the concatenated UTF-8 bytes of
all characters of the string. -/
def utf8Encode (s : String) : List Nat :=
  (s.data.map (fun c => utf8EncodeChar c.toNat)).flatten

/-- The low hexadecimal digit characters `0`-`9`, `a`-`f` used by Python
`hexdigest`. -/
def hexDigitChar (n : Nat) : Char :=
  if n < 10 then Char.ofNat (48 + n) else Char.ofNat (87 + n)

/-- Models the `hexdigest` rendering of a byte sequence: each byte becomes
two lowercase hexadecimal digits, high nibble first. -/
def bytesToHex (bs : List Nat) : String :=
  String.mk ((bs.map (fun b => [hexDigitChar (b / 16), hexDigitChar (b % 16)])).flatten)

/-- Models a `hashlib.sha256()` object: the state is the byte stream
absorbed so far; the digest of the stream is taken by an abstract
compression function supplied at digest time (the claims checked here
are about which bytes are fed, in which order, not about the SHA-256
compression itself). -/
structure Sha256Hasher where
  buf : List Nat

/-- Models `sha256.update(bs)`: absorbs further bytes at the end of the
stream. -/
def Sha256Hasher.update (st : Sha256Hasher) (bs : List Nat) : Sha256Hasher :=
  ⟨st.buf ++ bs⟩

/-- Models `sha256.hexdigest()`: the digest bytes of the absorbed stream,
rendered as lowercase hexadecimal. -/
def Sha256Hasher.hexdigest (hash : List Nat → List Nat) (st : Sha256Hasher) : String :=
  bytesToHex (hash st.buf)

/-- `HttpCaller._cal_signature`: feed token (UTF-8), raw body bytes,
tenant id (UTF-8), timestamp string (UTF-8) and nonce string (UTF-8),
in that order, then take the lowercase hex digest. -/
def cal_signature (hash : List Nat → List Nat) (ctx : Context)
    (req_bytes : List Nat) (ts nonce : String) : String :=
  Sha256Hasher.hexdigest hash
    ((((((⟨[]⟩ : Sha256Hasher).update (utf8Encode ctx.token)).update
      req_bytes).update (utf8Encode ctx.tenant_id)).update
      (utf8Encode ts)).update (utf8Encode nonce))

/-- Models Python `str.lower()` (ASCII case folding suffices for the
strings compared here). -/
def pyLower (s : String) : String :=
  String.mk (s.data.map Char.toLower)

/-- `startsWithList n h` holds when `n` is an initial segment of `h`. -/
def startsWithList : List Char → List Char → Bool
  | [], _ => true
  | _ :: _, [] => false
  | n :: ns, h :: hs => n == h && startsWithList ns hs

/-- `containsSubList n h` holds when `n` occurs contiguously inside `h`. -/
def containsSubList (needle : List Char) : List Char → Bool
  | [] => startsWithList needle []
  | c :: rest => startsWithList needle (c :: rest) || containsSubList needle rest

/-- Models the Python expression `needle in hay` on strings. -/
def strContains (hay needle : String) : Bool :=
  containsSubList needle.data hay.data

/-- Models Python `str.format`: each occurrence of the two-character
replacement field (character codes 123 and 125) is replaced by the next
positional argument; all other characters, including printf-style
percent placeholders, are copied verbatim, surplus arguments are
ignored, and once the arguments run out the remaining characters are
copied verbatim. -/
def pyFormatAux : List Char → List String → List Char
  | [], _ => []
  | [c1], _ => [c1]
  | c1 :: c2 :: rest, args =>
    if c1.toNat == 123 && c2.toNat == 125 then
      match args with
      | a :: as => a.data ++ pyFormatAux rest as
      | [] => c1 :: pyFormatAux (c2 :: rest) []
    else c1 :: pyFormatAux (c2 :: rest) args

/-- Models Python `template.format(*args)` restricted to plain
positional replacement fields. -/
def pyFormat (template : String) (args : List String) : String :=
  String.mk (pyFormatAux template.data args)

/-- One shift-and-conditionally-xor step of the reflected CRC-32
polynomial 0xEDB88320. -/
def crc32OneBit (c : Nat) : Nat :=
  if c % 2 = 1 then (c / 2) ^^^ 3988292384 else c / 2

/-- Absorb one byte into a CRC-32 accumulator. -/
def crc32Byte (c b : Nat) : Nat :=
  (crc32OneBit)^[8] (c ^^^ b)

/-- Models `zlib.crc32` as used in the gzip trailer. -/
def crc32 (data : List Nat) : Nat :=
  (data.foldl crc32Byte 4294967295) ^^^ 4294967295

/-- A 32-bit value as four little-endian bytes. -/
def le4bytes (n : Nat) : List Nat :=
  [n % 256, n / 256 % 256, n / 65536 % 256, n / 16777216 % 256]

/-- One stored (uncompressed) DEFLATE block: final-block flag byte,
16-bit little-endian length, its one's complement, then the raw bytes. -/
def mkStoredBlock (final : Bool) (chunk : List Nat) : List Nat :=
  (if final then 1 else 0) :: chunk.length % 256 :: chunk.length / 256 ::
    (65535 - chunk.length) % 256 :: (65535 - chunk.length) / 256 :: chunk

/-- A DEFLATE stream of stored blocks covering `data`; blocks carry at
most 65535 bytes and only the last block is marked final. -/
def deflateStored (data : List Nat) : List Nat :=
  if h : data.length ≤ 65535 then mkStoredBlock true data
  else mkStoredBlock false (data.take 65535) ++ deflateStored (data.drop 65535)
termination_by data.length
decreasing_by simp [List.length_drop]; omega

/-- The fixed 10-byte gzip member header (magic, deflate method, no
flags, zero mtime, unknown OS). -/
def gzipHeaderBytes : List Nat :=
  [31, 139, 8, 0, 0, 0, 0, 0, 0, 255]

/-- Models `gzip.compress`: gzip header, DEFLATE data (stored blocks in
this model), then the CRC-32 and length-mod-2^32 trailer, both
little-endian. -/
def gzipCompress (data : List Nat) : List Nat :=
  gzipHeaderBytes ++ (deflateStored data ++
    (le4bytes (crc32 data) ++ le4bytes (data.length % 4294967296)))

/-- Decode a DEFLATE stream of stored blocks; returns the decoded bytes
and the bytes remaining after the final block. -/
def inflateStored (bs : List Nat) : Option (List Nat × List Nat) :=
  match bs with
  | bf :: l1 :: l2 :: n1 :: n2 :: rest =>
    if l1 + 256 * l2 + (n1 + 256 * n2) = 65535 then
      if h : l1 + 256 * l2 ≤ rest.length then
        if bf = 1 then
          some (rest.take (l1 + 256 * l2), rest.drop (l1 + 256 * l2))
        else if bf = 0 then
          match inflateStored (rest.drop (l1 + 256 * l2)) with
          | some (tail, rem) => some (rest.take (l1 + 256 * l2) ++ tail, rem)
          | none => none
        else none
      else none
    else none
  | _ => none
termination_by bs.length
decreasing_by simp [List.length_drop]; omega

/-- Models `gzip.decompress`: checks the member header, inflates the
stored blocks, and verifies the CRC-32 / length trailer. -/
def gzipDecompress (bs : List Nat) : Option (List Nat) :=
  if bs.take 10 = gzipHeaderBytes then
    match inflateStored (bs.drop 10) with
    | some (data, rem) =>
      if rem = le4bytes (crc32 data) ++ le4bytes (data.length % 4294967296)
      then some data else none
    | none => none
  else none

/-- Header-map lookup: first binding wins (all keys built by the caller
are distinct, matching Python dict semantics here). -/
def hget (headers : List (String × String)) (k : String) : Option String :=
  match headers with
  | [] => none
  | (k2, v) :: rest => if k2 = k then some v else hget rest k

/-- `string.ascii_letters + string.digits`, the population the nonce is
sampled from. -/
def noncePool : String :=
  "abcdefghijklmnopqrstuvwxyzABCDEFGHIJKLMNOPQRSTUVWXYZ0123456789"

/-- Modelled from the contract of `random.sample(population, 8)`: the
sample has length 8, is drawn without replacement (no duplicates), and
every element comes from the population. -/
def NonceSampleOk (w : CallWorld) : Prop :=
  w.nonceSample.length = 8 ∧ w.nonceSample.Nodup ∧
    ∀ c ∈ w.nonceSample, c ∈ noncePool.data

/-- The `Request-Id` value chosen by `HttpCaller._build_headers`: the
option's request id when present and non-empty, else `str(uuid.uuid1())`. -/
def chosenRequestId (opts : CallOptions) (w : CallWorld) : String :=
  match opts.request_id with
  | some rid => if rid.length > 0 then rid else w.uuid1
  | none => w.uuid1

/-- `HttpCaller._with_auth_headers`: appends the tenant id, the integer
second timestamp, the sampled nonce and the signature computed over the
compressed body with that timestamp and nonce. -/
def with_auth_headers (hash : List Nat → List Nat) (ctx : Context)
    (headers : List (String × String)) (req_bytes : List Nat)
    (w : CallWorld) : List (String × String) :=
  headers ++
    [("Tenant-Id", ctx.tenant_id),
     ("Tenant-Ts", Nat.repr w.now),
     ("Tenant-Nonce", String.mk w.nonceSample),
     ("Tenant-Signature",
       cal_signature hash ctx req_bytes (Nat.repr w.now)
         (String.mk w.nonceSample))]

/-- `HttpCaller._build_headers`: the four fixed content headers, the
request id, then the authentication headers. -/
def build_headers (hash : List Nat → List Nat) (ctx : Context)
    (opts : CallOptions) (req_bytes : List Nat) (w : CallWorld) :
    List (String × String) :=
  with_auth_headers hash ctx
    [("Content-Encoding", "gzip"),
     ("Accept-Encoding", "gzip"),
     ("Content-Type", "application/x-protobuf"),
     ("Accept", "application/x-protobuf"),
     ("Request-Id", chosenRequestId opts w)]
    req_bytes w

/-- Outcome of the underlying `requests.post` call: either a completed
HTTP exchange with status, reason and body content, or a raised
transport exception carrying a message. -/
inductive TransportResult where
  | ok (status : Nat) (reason : String) (content : Option (List Nat))
  | exn (msg : String)

/-- Modelled from the spec: the two user-visible error kinds,
`NetException` (Network Error) and `BizException` (Business/Protocol
Error) of `byteplus.core.exception`, each carrying a message. -/
inductive SdkError where
  | net (msg : String)
  | biz (msg : String)

/-- The `_SUCCESS_HTTP_CODE` constant. -/
def _SUCCESS_HTTP_CODE : Nat := 200

/-- `HttpCaller._do_http_request`: a raised transport exception whose
lowercased message contains `timeout` becomes `NetException(msg)` and
any other one becomes `BizException(msg)`; a completed exchange with
status other than 200 becomes a `NetException` whose message is
`"code:%d msg:%s".format(status, reason)`; otherwise the body content
is returned. -/
def do_http_request (url : String) (headers : List (String × String))
    (req_bytes : List Nat) (timeoutOpt : Option Nat)
    (tr : TransportResult) : Except SdkError (Option (List Nat)) :=
  match tr with
  | TransportResult.exn msg =>
    if strContains (pyLower msg) "timeout" then Except.error (SdkError.net msg)
    else Except.error (SdkError.biz msg)
  | TransportResult.ok status reason content =>
    if status ≠ _SUCCESS_HTTP_CODE then
      Except.error (SdkError.net
        (pyFormat "code:%d msg:%s" [Nat.repr status, reason]))
    else Except.ok content

/-- The response phase of `HttpCaller.do_request`: errors propagate, a
missing body leaves the response container untouched, a present body is
parsed into it, and a parse failure becomes
`BizException("parse response fail")`. -/
def handleResponse {M : Type} (parse : List Nat → Option M)
    (r : Except SdkError (Option (List Nat))) : Except SdkError (Option M) :=
  match r with
  | Except.error e => Except.error e
  | Except.ok none => Except.ok none
  | Except.ok (some bs) =>
    match parse bs with
    | some m => Except.ok (some m)
    | none => Except.error (SdkError.biz "parse response fail")

/-- `HttpCaller.do_request`: gzip-compress the serialized request
(`ser` stands for `request.SerializeToString()`), build the headers,
perform the HTTP exchange and handle the response. The result is the
final state of the caller-supplied response container: `Except.ok none`
when it was never written, `Except.ok (some m)` when it was populated
with `m`, and `Except.error` when an exception was raised. -/
def do_request {M : Type} (hash : List Nat → List Nat) (ctx : Context)
    (url : String) (ser : List Nat) (parse : List Nat → Option M)
    (opts : CallOptions) (w : CallWorld)
    (tr : List Nat → TransportResult) : Except SdkError (Option M) :=
  let req_bytes : List Nat := gzipCompress ser
  let headers := build_headers hash ctx opts req_bytes w
  handleResponse parse
    (do_http_request url headers req_bytes opts.timeout (tr req_bytes))

/-- A prefix of an append at the length of the left part is that part. -/
lemma take_len_append {α : Type} (l t : List α) : (l ++ t).take l.length = l := by
  induction l with
  | nil => rfl
  | cons a as ih => simp [ih]

/-- Dropping the left part of an append at its length leaves the right part. -/
lemma drop_len_append {α : Type} (l t : List α) : (l ++ t).drop l.length = t := by
  induction l with
  | nil => rfl
  | cons a as ih => exact ih

/-- `startsWithList` decides the prefix relation. -/
lemma startsWithList_iff (n : List Char) :
    ∀ h, startsWithList n h = true ↔ ∃ t, h = n ++ t := by
  induction n with
  | nil => intro h; simp [startsWithList]
  | cons a as ih =>
    intro h
    cases h with
    | nil => simp [startsWithList]
    | cons b hs => simp [startsWithList, ih, eq_comm (a := a) (b := b)]

/-- `containsSubList` decides the contiguous-substring relation. -/
lemma containsSubList_iff (n : List Char) :
    ∀ h, containsSubList n h = true ↔ ∃ pre post, h = pre ++ n ++ post := by
  intro h
  induction h with
  | nil =>
    rw [containsSubList, startsWithList_iff]
    constructor
    · rintro ⟨t, ht⟩
      rw [eq_comm, List.append_eq_nil] at ht
      exact ⟨[], [], by simp [ht.1, ht.2]⟩
    · rintro ⟨pre, post, hp⟩
      rw [eq_comm, List.append_eq_nil, List.append_eq_nil] at hp
      exact ⟨[], by simp [hp.1.1, hp.1.2, hp.2]⟩
  | cons c rest ih =>
    rw [containsSubList, Bool.or_eq_true, startsWithList_iff, ih]
    constructor
    · rintro (⟨t, ht⟩ | ⟨pre, post, hp⟩)
      · exact ⟨[], t, by simpa using ht⟩
      · exact ⟨c :: pre, post, by simp [hp]⟩
    · rintro ⟨pre, post, hp⟩
      cases pre with
      | nil => exact Or.inl ⟨post, by simpa using hp⟩
      | cons p ps =>
        simp only [List.cons_append, List.cons.injEq] at hp
        exact Or.inr ⟨ps, post, hp.2⟩

/-- `strContains` decides substring occurrence on the underlying
character lists. -/
lemma strContains_iff (hay needle : String) :
    strContains hay needle = true ↔
      ∃ pre post, hay.data = pre ++ needle.data ++ post :=
  containsSubList_iff needle.data hay.data

/-- Every nibble renders to a lowercase hexadecimal digit character. -/
lemma hexDigitChar_mem_lowerHex :
    ∀ n, n < 16 → hexDigitChar n ∈ ("0123456789abcdef" : String).data := by
  decide

/-- Inflating a stored-block stream recovers the data and the trailing
bytes exactly. -/
theorem inflate_deflate (data tail : List Nat) :
    inflateStored (deflateStored data ++ tail) = some (data, tail) := by
  by_cases h : data.length ≤ 65535
  · have hd : deflateStored data = mkStoredBlock true data := by
      rw [deflateStored]
      exact dif_pos h
    have e1 : data.length % 256 + 256 * (data.length / 256) = data.length :=
      Nat.mod_add_div _ _
    have e2 : (65535 - data.length) % 256 + 256 * ((65535 - data.length) / 256)
        = 65535 - data.length := Nat.mod_add_div _ _
    rw [hd]
    show inflateStored (1 :: data.length % 256 :: data.length / 256 ::
      (65535 - data.length) % 256 :: (65535 - data.length) / 256 ::
      (data ++ tail)) = some (data, tail)
    simp only [inflateStored]
    rw [e1, e2]
    rw [if_pos (by omega), dif_pos (by simp [List.length_append])]
    simp [take_len_append, drop_len_append]
  · have hd : deflateStored data
        = mkStoredBlock false (data.take 65535) ++ deflateStored (data.drop 65535) := by
      rw [deflateStored]
      exact dif_neg h
    have hcl : (data.take 65535).length = 65535 := by
      simp [List.length_take]
      omega
    rw [hd, List.append_assoc]
    show inflateStored ((0 : Nat) :: (data.take 65535).length % 256 ::
      (data.take 65535).length / 256 ::
      (65535 - (data.take 65535).length) % 256 ::
      (65535 - (data.take 65535).length) / 256 ::
      (data.take 65535 ++ (deflateStored (data.drop 65535) ++ tail)))
        = some (data, tail)
    simp only [inflateStored]
    rw [hcl]
    have e3 : 65535 % 256 + 256 * (65535 / 256) = 65535 := by omega
    rw [e3]
    have e4 : (65535 - 65535) % 256 + 256 * ((65535 - 65535) / 256) = 0 := by omega
    rw [if_pos (by omega), dif_pos (by simp [List.length_append, hcl])]
    have e5 : (data.take 65535 ++ (deflateStored (data.drop 65535) ++ tail)).drop 65535
        = deflateStored (data.drop 65535) ++ tail := by
      have := drop_len_append (data.take 65535) (deflateStored (data.drop 65535) ++ tail)
      rwa [hcl] at this
    have e6 : (data.take 65535 ++ (deflateStored (data.drop 65535) ++ tail)).take 65535
        = data.take 65535 := by
      have := take_len_append (data.take 65535) (deflateStored (data.drop 65535) ++ tail)
      rwa [hcl] at this
    rw [e5, inflate_deflate (data.drop 65535) tail]
    simp [e6, List.take_append_drop]
termination_by data.length
decreasing_by simp [List.length_drop]; omega

/-- Decompressing the gzip model of any byte list yields it back. -/
lemma gzip_roundtrip (data : List Nat) :
    gzipDecompress (gzipCompress data) = some data := by
  have h1 : (gzipCompress data).take 10 = gzipHeaderBytes := by
    have := take_len_append gzipHeaderBytes (deflateStored data ++
      (le4bytes (crc32 data) ++ le4bytes (data.length % 4294967296)))
    exact this
  have h2 : (gzipCompress data).drop 10 = deflateStored data ++
      (le4bytes (crc32 data) ++ le4bytes (data.length % 4294967296)) := by
    have := drop_len_append gzipHeaderBytes (deflateStored data ++
      (le4bytes (crc32 data) ++ le4bytes (data.length % 4294967296)))
    exact this
  rw [gzipDecompress, if_pos h1, h2, inflate_deflate]
  simp

/-- C1: the Tenant-Signature value equals the SHA-256 digest of the
concatenation, in this exact order, of the UTF-8 token bytes, the raw
compressed-body bytes, the UTF-8 tenant-id bytes, the UTF-8 timestamp
bytes and the UTF-8 nonce bytes, rendered as a lowercase hexadecimal
string (stated for any digest function producing byte output). -/
theorem signature_is_ordered_sha256_hex (hash : List Nat → List Nat)
    (ctx : Context) (body : List Nat) (ts nonce : String)
    (hH : ∀ b ∈ hash (utf8Encode ctx.token ++ body ++ utf8Encode ctx.tenant_id ++
      utf8Encode ts ++ utf8Encode nonce), b < 256) :
    cal_signature hash ctx body ts nonce
      = bytesToHex (hash (utf8Encode ctx.token ++ body ++ utf8Encode ctx.tenant_id ++
          utf8Encode ts ++ utf8Encode nonce))
    ∧ ∀ c ∈ (cal_signature hash ctx body ts nonce).data,
        c ∈ ("0123456789abcdef" : String).data := by
  refine ⟨rfl, ?_⟩
  intro c hc
  have hc2 : c ∈ ((hash (utf8Encode ctx.token ++ body ++ utf8Encode ctx.tenant_id ++
      utf8Encode ts ++ utf8Encode nonce)).map
        (fun b => [hexDigitChar (b / 16), hexDigitChar (b % 16)])).flatten := hc
  rw [List.mem_flatten] at hc2
  obtain ⟨l2, hl2, hcl⟩ := hc2
  rw [List.mem_map] at hl2
  obtain ⟨b, hb, rfl⟩ := hl2
  have hb256 := hH b hb
  simp only [List.mem_cons, List.not_mem_nil, or_false] at hcl
  rcases hcl with rfl | rfl
  · exact hexDigitChar_mem_lowerHex (b / 16) (by omega)
  · exact hexDigitChar_mem_lowerHex (b % 16) (by omega)

/-- Instantiation of the signature theorem at concrete inputs. -/
theorem signature_is_ordered_sha256_hex_witness :
    (∀ b ∈ (fun _ : List Nat => [0, 171, 255]) (utf8Encode "tok" ++ [7, 9] ++
        utf8Encode "tid" ++ utf8Encode "1700000000" ++ utf8Encode "aBcD1234"), b < 256)
    ∧ (cal_signature (fun _ => [0, 171, 255]) ⟨"tid", "tok"⟩ [7, 9] "1700000000" "aBcD1234"
        = bytesToHex ((fun _ : List Nat => [0, 171, 255]) (utf8Encode "tok" ++ [7, 9] ++
            utf8Encode "tid" ++ utf8Encode "1700000000" ++ utf8Encode "aBcD1234"))
      ∧ ∀ c ∈ (cal_signature (fun _ => [0, 171, 255]) ⟨"tid", "tok"⟩ [7, 9] "1700000000"
          "aBcD1234").data, c ∈ ("0123456789abcdef" : String).data) :=
  ⟨by decide, signature_is_ordered_sha256_hex (fun _ => [0, 171, 255]) ⟨"tid", "tok"⟩
    [7, 9] "1700000000" "aBcD1234" (by decide)⟩

/-- C2 (refuting the claim as stated): on a non-200 exchange the raised
Network Error message is the literal template `code:%d msg:%s`, because
`str.format` ignores printf-style placeholders and finds no replacement
field, so the message contains neither the status code nor the reason
phrase. -/
theorem non200_error_message_is_unformatted :
    do_http_request "u" [] [] none
        (TransportResult.ok 500 "Internal Server Error" (some []))
      = Except.error (SdkError.net "code:%d msg:%s")
    ∧ strContains "code:%d msg:%s" "500" = false
    ∧ strContains "code:%d msg:%s" "Internal Server Error" = false :=
  ⟨rfl, rfl, rfl⟩

/-- C3: a transport failure whose lowercased message contains the word
timeout raises a Network Error carrying that message, any other
transport failure raises a Business/Protocol Error carrying that
message, and in no case is the failure swallowed into a successful
result. -/
theorem transport_failure_classification (url : String)
    (hs : List (String × String)) (body : List Nat) (t : Option Nat) (msg : String) :
    ((∃ pre post, (pyLower msg).data = pre ++ ("timeout" : String).data ++ post) →
      do_http_request url hs body t (TransportResult.exn msg)
        = Except.error (SdkError.net msg))
    ∧ ((¬ ∃ pre post, (pyLower msg).data = pre ++ ("timeout" : String).data ++ post) →
      do_http_request url hs body t (TransportResult.exn msg)
        = Except.error (SdkError.biz msg))
    ∧ ∀ o, do_http_request url hs body t (TransportResult.exn msg) ≠ Except.ok o := by
  by_cases hb : strContains (pyLower msg) "timeout" = true
  · refine ⟨fun _ => ?_, fun hn => absurd ((strContains_iff _ _).mp hb) hn, fun o => ?_⟩
    · simp [do_http_request, hb]
    · simp [do_http_request, hb]
  · have hb' : strContains (pyLower msg) "timeout" = false := by
      cases hcv : strContains (pyLower msg) "timeout"
      · rfl
      · exact absurd hcv hb
    refine ⟨fun hx => absurd ((strContains_iff _ _).mpr hx) hb, fun _ => ?_, fun o => ?_⟩
    · simp [do_http_request, hb']
    · simp [do_http_request, hb']

/-- Instantiation of the transport-failure classification at a concrete
timeout-flavored message. -/
theorem transport_failure_classification_witness :
    (∃ pre post, (pyLower "Read Timeout.").data
        = pre ++ ("timeout" : String).data ++ post)
    ∧ do_http_request "u" [] [] none (TransportResult.exn "Read Timeout.")
        = Except.error (SdkError.net "Read Timeout.") := by
  have hx : (pyLower "Read Timeout.").data
      = ("read " : String).data ++ ("timeout" : String).data ++ ("." : String).data := by
    decide
  exact ⟨⟨("read " : String).data, ("." : String).data, hx⟩,
    (transport_failure_classification "u" [] [] none "Read Timeout.").1
      ⟨("read " : String).data, ("." : String).data, hx⟩⟩

/-- C4: on an HTTP 200 reply, a body that fails to deserialize raises a
Business/Protocol Error with message parse response fail, and a body
that deserializes successfully populates the response container with
the decoded message and raises no error. -/
theorem http200_parse_behavior {M : Type} (hash : List Nat → List Nat)
    (ctx : Context) (url : String) (ser : List Nat) (parse : List Nat → Option M)
    (opts : CallOptions) (w : CallWorld) (reason : String) (bs : List Nat) :
    do_request hash ctx url ser parse opts w
        (fun _ => TransportResult.ok 200 reason (some bs))
      = match parse bs with
        | some m => Except.ok (some m)
        | none => Except.error (SdkError.biz "parse response fail") := rfl

/-- C5: a completed exchange with a status other than 200 raises a
Network Error and the response container is never populated. -/
theorem non200_raises_net_no_mutation {M : Type} (hash : List Nat → List Nat)
    (ctx : Context) (url : String) (ser : List Nat) (parse : List Nat → Option M)
    (opts : CallOptions) (w : CallWorld) (status : Nat) (reason : String)
    (content : Option (List Nat)) (h : status ≠ 200) :
    do_request hash ctx url ser parse opts w
        (fun _ => TransportResult.ok status reason content)
      = Except.error (SdkError.net (pyFormat "code:%d msg:%s" [Nat.repr status, reason]))
    ∧ ∀ m : M, do_request hash ctx url ser parse opts w
        (fun _ => TransportResult.ok status reason content) ≠ Except.ok (some m) := by
  have he : do_request hash ctx url ser parse opts w
      (fun _ => TransportResult.ok status reason content)
    = Except.error (SdkError.net (pyFormat "code:%d msg:%s" [Nat.repr status, reason])) := by
    simp [do_request, do_http_request, handleResponse, _SUCCESS_HTTP_CODE, h]
  refine ⟨he, fun m hcon => ?_⟩
  rw [he] at hcon
  exact Except.noConfusion hcon

/-- Instantiation of the non-200 theorem at HTTP 500. -/
theorem non200_raises_net_no_mutation_witness :
    (500 : Nat) ≠ 200
    ∧ do_request (fun _ => [0]) ⟨"tid", "tok"⟩ "u" [1] (fun _ => (none : Option Nat))
        ⟨none, none⟩ ⟨7, "u1", "aBcD1234".data⟩
        (fun _ => TransportResult.ok 500 "Internal Server Error" (some []))
      = Except.error (SdkError.net
          (pyFormat "code:%d msg:%s" [Nat.repr 500, "Internal Server Error"])) :=
  ⟨by decide, (non200_raises_net_no_mutation (fun _ => [0]) ⟨"tid", "tok"⟩ "u" [1]
      (fun _ => (none : Option Nat)) ⟨none, none⟩ ⟨7, "u1", "aBcD1234".data⟩
      500 "Internal Server Error" (some []) (by decide)).1⟩

/-- C6: the transmitted body is exactly the gzip compression of the
serialized request bytes, applied unconditionally for every payload,
and gzip-decompressing that body yields the serialized bytes back. -/
theorem body_gzip_roundtrip {M : Type} (hash : List Nat → List Nat) (ctx : Context)
    (url : String) (ser : List Nat) (parse : List Nat → Option M)
    (opts : CallOptions) (w : CallWorld) (tr : List Nat → TransportResult) :
    do_request hash ctx url ser parse opts w tr
      = handleResponse parse
          (do_http_request url (build_headers hash ctx opts (gzipCompress ser) w)
            (gzipCompress ser) opts.timeout (tr (gzipCompress ser)))
    ∧ gzipDecompress (gzipCompress ser) = some ser :=
  ⟨rfl, gzip_roundtrip ser⟩

/-- C7: the header set always carries a Request-Id; it equals the
caller-supplied id exactly when that id is present and non-empty, and
otherwise it is the freshly generated uuid string, which is non-empty. -/
theorem request_id_header_spec (hash : List Nat → List Nat) (ctx : Context)
    (opts : CallOptions) (req_bytes : List Nat) (w : CallWorld)
    (hu : w.uuid1.length = 36) :
    hget (build_headers hash ctx opts req_bytes w) "Request-Id"
        = some (chosenRequestId opts w)
    ∧ (∀ s, opts.request_id = some s → s.length > 0 → chosenRequestId opts w = s)
    ∧ ((opts.request_id = none ∨ opts.request_id = some "") →
        chosenRequestId opts w = w.uuid1 ∧ (chosenRequestId opts w).length > 0) := by
  refine ⟨rfl, ?_, ?_⟩
  · intro s hs hl
    simp [chosenRequestId, hs, hl]
  · intro hcase
    have hcri : chosenRequestId opts w = w.uuid1 := by
      rcases hcase with hn | he
      · simp [chosenRequestId, hn]
      · simp [chosenRequestId, he]
    exact ⟨hcri, by rw [hcri]; omega⟩

/-- Instantiation of the Request-Id theorem at a concrete call with an
explicit request id. -/
theorem request_id_header_spec_witness :
    ("00000000-0000-0000-0000-000000000000" : String).length = 36
    ∧ hget (build_headers (fun _ => [0]) ⟨"tid", "tok"⟩ ⟨some "rid-1", none⟩ [1]
        ⟨7, "00000000-0000-0000-0000-000000000000", "aBcD1234".data⟩) "Request-Id"
      = some (chosenRequestId ⟨some "rid-1", none⟩
          ⟨7, "00000000-0000-0000-0000-000000000000", "aBcD1234".data⟩) :=
  ⟨by decide, (request_id_header_spec (fun _ => [0]) ⟨"tid", "tok"⟩ ⟨some "rid-1", none⟩
    [1] ⟨7, "00000000-0000-0000-0000-000000000000", "aBcD1234".data⟩ (by decide)).1⟩

/-- C8: the header set always carries Content-Encoding gzip,
Accept-Encoding gzip, Content-Type and Accept application/x-protobuf,
Tenant-Id equal to the context tenant id, and Tenant-Ts equal to the
decimal rendering of the integer-second Unix time. -/
theorem fixed_headers_spec (hash : List Nat → List Nat) (ctx : Context)
    (opts : CallOptions) (req_bytes : List Nat) (w : CallWorld) :
    hget (build_headers hash ctx opts req_bytes w) "Content-Encoding" = some "gzip"
    ∧ hget (build_headers hash ctx opts req_bytes w) "Accept-Encoding" = some "gzip"
    ∧ hget (build_headers hash ctx opts req_bytes w) "Content-Type"
        = some "application/x-protobuf"
    ∧ hget (build_headers hash ctx opts req_bytes w) "Accept"
        = some "application/x-protobuf"
    ∧ hget (build_headers hash ctx opts req_bytes w) "Tenant-Id" = some ctx.tenant_id
    ∧ hget (build_headers hash ctx opts req_bytes w) "Tenant-Ts"
        = some (Nat.repr w.now) :=
  ⟨rfl, rfl, rfl, rfl, rfl, rfl⟩

/-- C9: the Tenant-Nonce header is the freshly sampled 8-character
string over the letters-and-digits alphabet of the call, and the
signature header is computed with exactly that nonce string. -/
theorem nonce_header_spec (hash : List Nat → List Nat) (ctx : Context)
    (opts : CallOptions) (req_bytes : List Nat) (w : CallWorld)
    (hw : NonceSampleOk w) :
    hget (build_headers hash ctx opts req_bytes w) "Tenant-Nonce"
        = some (String.mk w.nonceSample)
    ∧ (String.mk w.nonceSample).length = 8
    ∧ (∀ c ∈ (String.mk w.nonceSample).data, c ∈ noncePool.data)
    ∧ hget (build_headers hash ctx opts req_bytes w) "Tenant-Signature"
        = some (cal_signature hash ctx req_bytes (Nat.repr w.now)
            (String.mk w.nonceSample)) :=
  ⟨rfl, hw.1, hw.2.2, rfl⟩

/-- Instantiation of the nonce-header theorem at a concrete sampled
nonce. -/
theorem nonce_header_spec_witness :
    NonceSampleOk ⟨7, "u1", "aBcD1234".data⟩
    ∧ hget (build_headers (fun _ => [0]) ⟨"tid", "tok"⟩ ⟨none, none⟩ [1]
        ⟨7, "u1", "aBcD1234".data⟩) "Tenant-Nonce"
      = some (String.mk ("aBcD1234" : String).data) := by
  have hw : NonceSampleOk ⟨7, "u1", "aBcD1234".data⟩ := ⟨by decide, by decide, by decide⟩
  exact ⟨hw, (nonce_header_spec (fun _ => [0]) ⟨"tid", "tok"⟩ ⟨none, none⟩ [1]
    ⟨7, "u1", "aBcD1234".data⟩ hw).1⟩

/-- C10: the sampled nonce has pairwise distinct characters (sampling
without replacement), while 8-character strings over the same alphabet
with repeated characters exist, so the nonce space is a strict subset
of all 8-character alphabet strings. -/
theorem nonce_distinct_chars (hash : List Nat → List Nat) (ctx : Context)
    (opts : CallOptions) (req_bytes : List Nat) (w : CallWorld)
    (hw : NonceSampleOk w) :
    hget (build_headers hash ctx opts req_bytes w) "Tenant-Nonce"
        = some (String.mk w.nonceSample)
    ∧ (String.mk w.nonceSample).data.Nodup
    ∧ ∃ s : String, s.length = 8 ∧ (∀ c ∈ s.data, c ∈ noncePool.data)
        ∧ ¬ s.data.Nodup :=
  ⟨rfl, hw.2.1, ⟨"aaaaaaaa", by decide, by decide, by decide⟩⟩

/-- Instantiation of the nonce-distinctness theorem at a concrete
sampled nonce. -/
theorem nonce_distinct_chars_witness :
    NonceSampleOk ⟨3, "u2", "Zy09Xw12".data⟩
    ∧ (String.mk ("Zy09Xw12" : String).data).data.Nodup := by
  have hw : NonceSampleOk ⟨3, "u2", "Zy09Xw12".data⟩ := ⟨by decide, by decide, by decide⟩
  exact ⟨hw, (nonce_distinct_chars (fun _ => [0]) ⟨"tid", "tok"⟩ ⟨none, none⟩ [1]
    ⟨3, "u2", "Zy09Xw12".data⟩ hw).2.1⟩
